import Mathlib

/-!
Verification of the qml-locate core subsystems, shallowly embedded from
`src/app/routing.py` and `src/app/backend.py`.

Conventions of the embedding:
* JSON values are modelled by the inductive `Json`; Python floats are
  modelled by rationals `ℚ` in the adapter/transport layer and by reals
  `ℝ` in the geometry layer (where square roots occur).
* Fallible Python code (`try`/`except`) is modelled with `Option`/`Except`.
* The asynchronous callback pipeline is modelled as a function from the
  per-attempt transport results to the final delivered outcome, together
  with the number of transport calls issued.
-/

open scoped List

/-! ## JSON values and Python numeric coercion -/

/-- A JSON value, as produced by `json.loads` in `routing.py`. -/
inductive Json where
  | null : Json
  | bool (b : Bool) : Json
  | num (q : ℚ) : Json
  | str (s : String) : Json
  | arr (elems : List Json) : Json
  | obj (fields : List (String × Json)) : Json

/-- Numeric value of a run of decimal digits. -/
def digitsVal (cs : List Char) : ℚ :=
  cs.foldl (fun acc c => acc * 10 + ((c.toNat - 48 : ℕ) : ℚ)) 0

/-- Python `float(s)` on a string, restricted to plain decimal literals
(optional sign, digits, optional fractional part).  The exotic inputs the
builtin also accepts (exponents, inf/nan, surrounding whitespace) do not
occur in this code base and are modelled as failures. -/
def pyFloatOfString (s : String) : Option ℚ :=
  let cs := s.toList
  let signAndRest : ℚ × List Char :=
    match cs with
    | '-' :: r => (-1, r)
    | '+' :: r => (1, r)
    | r => (1, r)
  let sign := signAndRest.1
  let body := signAndRest.2
  let intPart := body.takeWhile Char.isDigit
  let rest := body.dropWhile Char.isDigit
  match rest with
  | [] => if intPart.isEmpty then none else some (sign * digitsVal intPart)
  | '.' :: frac =>
      if frac.all Char.isDigit ∧ ¬(intPart.isEmpty ∧ frac.isEmpty) then
        some (sign * (digitsVal intPart + digitsVal frac / (10 : ℚ) ^ frac.length))
      else none
  | _ => none

/-- Python `float(x)` on a decoded JSON value: numbers pass through, booleans
coerce to 0/1, numeric strings are parsed, everything else raises
(modelled as `none`). -/
def pyFloat : Json → Option ℚ
  | .num q => some q
  | .bool b => some (if b then 1 else 0)
  | .str s => pyFloatOfString s
  | _ => none

/-- Field access on a JSON object; `none` when the receiver is not an object
(Python raises there) or the key is missing (dict access raises / `.get`
returns `None`; both paths are caught by the adapters' handlers). -/
def getField (j : Json) (k : String) : Option Json :=
  match j with
  | .obj fields => fields.lookup k
  | _ => none

/-- Python truthiness of a decoded JSON value. -/
def truthy : Json → Bool
  | .null => false
  | .bool b => b
  | .num q => q ≠ 0
  | .str s => s ≠ ""
  | .arr elems => ¬elems.isEmpty
  | .obj fields => ¬fields.isEmpty

/-- Python `val or default` applied to an optional lookup result, as in
`js.get(k) or default` in `routing.py`. -/
def jsonOrDefault (v : Option Json) (dflt : Json) : Json :=
  match v with
  | some j => if truthy j then j else dflt
  | none => dflt

/-! ## Adapters (`RoutingClient._parse_nominatim`, `parse_route` in
`RoutingClient.route_async`) -/

/-- Result delivered by the geocode adapter: `on_ok(lat, lon)` or
`on_err(msg)`. -/
inductive GeoResult where
  | ok (lat lon : ℚ) : GeoResult
  | err (msg : String) : GeoResult
  deriving DecidableEq

/-- Embedding of `RoutingClient._parse_nominatim`: first element of the
candidate array, `float` coercion of its `lat`/`lon` fields; any exception
inside the `try` block yields the parse-error message. -/
def parse_nominatim (js : Json) : GeoResult :=
  match js with
  | .arr (first :: _) =>
      match (getField first ("lat")).bind pyFloat,
            (getField first ("lon")).bind pyFloat with
      | some dlat, some dlon => .ok dlat dlon
      | _, _ => .err ("Geocoding parse error.")
  | _ => .err ("Destination not found.")

/-- Result delivered by the route adapter. -/
inductive RouteParse where
  | ok (path : List (ℚ × ℚ)) (distance_m duration_s : ℚ) : RouteParse
  | err (msg : String) : RouteParse
  deriving DecidableEq

/-- The list comprehension `[(float(lat), float(lon)) for lon, lat in coords]`:
each element must destructure into exactly two values, each `float`-coercible.
A non-array element (e.g. a two-character string) fails at the subsequent
`float` call in Python; both failures land in the same handler, so both are
modelled as `none`. -/
def mapPath : List Json → Option (List (ℚ × ℚ))
  | [] => some []
  | .arr [lon, lat] :: rest =>
      match pyFloat lat, pyFloat lon, mapPath rest with
      | some la, some lo, some tail => some ((la, lo) :: tail)
      | _, _, _ => none
  | _ => none

/-- Embedding of the body of `parse_route` in `RoutingClient.route_async`
with `none` standing for an uncaught-in-the-body exception (converted to the
generic message by the wrapper below).  Non-dict receivers of `.get`, non-list
index/iteration targets and malformed coordinate pairs all raise in Python;
a string target would raise one step later (at `.get`/`float`), landing in
the same handler, so it is collapsed into the same `none`. -/
def parse_route_core (js : Json) : Option RouteParse :=
  match js with
  | .obj fields =>
    let routes := jsonOrDefault (fields.lookup ("routes")) (.arr [])
    if ¬truthy routes then some (.err ("No route found."))
    else
      match routes with
      | .arr (route :: _) =>
        match route with
        | .obj rfields =>
          let geom := jsonOrDefault (rfields.lookup ("geometry")) (.obj [])
          match geom with
          | .obj gfields =>
            let coords := jsonOrDefault (gfields.lookup ("coordinates")) (.arr [])
            match coords with
            | .arr cs =>
              match mapPath cs,
                    pyFloat ((rfields.lookup ("distance")).getD (.num 0)),
                    pyFloat ((rfields.lookup ("duration")).getD (.num 0)) with
              | some path, some d, some t => some (.ok path d t)
              | _, _, _ => none
            | _ => none
          | _ => none
        | _ => none
      | _ => none
  | _ => none

/-- Embedding of `parse_route`: the `except` clause maps any raised exception
to the fixed error message. -/
def parse_route (js : Json) : RouteParse :=
  (parse_route_core js).getD (.err ("Failed to parse route."))

/-- Provider-shaped route response: `routes[0].geometry.coordinates` as
longitude/latitude pairs plus distance and duration, per the OSRM wire
format consumed by `route_async`. -/
def mkRouteJson (coords : List (ℚ × ℚ)) (dist dur : ℚ) : Json :=
  .obj [(("routes"),
    .arr [.obj [(("geometry"),
                  .obj [(("coordinates"),
                         .arr (coords.map fun c => .arr [.num c.1, .num c.2]))]),
                (("distance"), .num dist),
                (("duration"), .num dur)]])]

/-! ## Retry orchestration (`RoutingClient._get_json_with_retry`,
`RoutingClient._maybe_retry`) -/

/-- Outcome of one `_single_json_get` attempt as delivered to its callbacks:
`on_ok(js)` or `on_err(msg, status)` with the optional HTTP status code. -/
abbrev SingleResult := Except (String × Option ℤ) Json

/-- The transient test of `_maybe_retry`:
`(status is None) or (status == 0) or (status == 429) or (500 <= status < 600)`. -/
def transient (status : Option ℤ) : Bool :=
  match status with
  | none => true
  | some s => s = 0 || s = 429 || (500 ≤ s && s < 600)

/-- Final outcome of one logical request. -/
inductive ReqOutcome where
  | success (js : Json) : ReqOutcome
  | failure (msg : String) : ReqOutcome

/-- The `attempt` loop of `_get_json_with_retry` driven by `_maybe_retry`:
`results i` is what transport attempt `i` delivers.  `attempts_left` is
decremented on every attempt exactly as in the source but — exactly as in the
source — never consulted; `_maybe_retry` retries whenever the failure is
transient and retry is enabled.  `fuel` bounds the number of attempts the
model is willing to unfold; `none` means the request is still unresolved
after `fuel` transport calls.  On resolution the second component is the
number of transport calls issued. -/
def get_json_attempts (retry_enabled : Bool) (results : ℕ → SingleResult) :
    ℤ → ℕ → ℕ → Option (ReqOutcome × ℕ)
  | _, _, 0 => none
  | attempts_left, i, fuel + 1 =>
      match results i with
      | .ok js => some (.success js, i + 1)
      | .error (msg, status) =>
          if transient status && retry_enabled then
            get_json_attempts retry_enabled results (attempts_left - 1) (i + 1) fuel
          else
            some (.failure (if msg = "" then ("Network error.") else msg), i + 1)

/-- Embedding of `_get_json_with_retry`: primes `attempts_left` with
`1 + (retries if retry_enabled else 0)` and starts the attempt loop. -/
def get_json_with_retry (retry_enabled : Bool) (retries : ℤ)
    (results : ℕ → SingleResult) (fuel : ℕ) : Option (ReqOutcome × ℕ) :=
  get_json_attempts retry_enabled results
    (1 + if retry_enabled then retries else 0) 0 fuel

/-! ## Attempt classification (`finish` in `_single_json_get` together with
`_maybe_retry`) -/

/-- Classification of a completed attempt. -/
inductive Classification where
  | Success : Classification
  | Transient : Classification
  | Fatal : Classification
  deriving DecidableEq

/-- The classification implemented by the code, as a function of whether the
reply carried a transport-level error and of the optional HTTP status code
(body parsing factored out): `finish` routes transport errors and non-2xx
statuses to `on_err`, and `_maybe_retry` then retries exactly the transient
ones; everything else delivered to `on_err` is final (Fatal), and the
remaining paths reach `on_ok` (Success). -/
def classify (transportError : Bool) (status : Option ℤ) : Classification :=
  if transportError then
    if transient status then .Transient else .Fatal
  else
    match status with
    | some s =>
        if 200 ≤ s ∧ s < 300 then .Success
        else if transient (some s) then .Transient else .Fatal
    | none => .Success

/-- Modelled from the spec (amended classification rules): a transport-level
error is Transient when the status is absent, 0, 429 or in [500,600) and
Fatal otherwise; without a transport error a 2xx or absent status is Success,
status 0, 429 or [500,600) is Transient, and any other status is Fatal. -/
def specClassify (transportError : Bool) (status : Option ℤ) : Classification :=
  match transportError, status with
  | true, none => .Transient
  | true, some s =>
      if s = 0 ∨ s = 429 ∨ (500 ≤ s ∧ s < 600) then .Transient else .Fatal
  | false, none => .Success
  | false, some s =>
      if 200 ≤ s ∧ s < 300 then .Success
      else if s = 0 ∨ s = 429 ∨ (500 ≤ s ∧ s < 600) then .Transient
      else .Fatal

/-! ## Geocode entry point (`RoutingClient.geocode_async`) -/

/-- Python `s.strip()`: remove leading and trailing whitespace.  (Defined on
the character list so that it evaluates structurally.) -/
def pyStrip (s : String) : String :=
  String.mk (((s.data.dropWhile Char.isWhitespace).reverse.dropWhile Char.isWhitespace).reverse)

/-- Embedding of `geocode_async`: blank queries are rejected with the fixed
message before any request is issued; otherwise the request pipeline runs and
a successful body is handed to `_parse_nominatim`, while a pipeline failure
message is passed through (`msg or "Geocoding failed."`).  The second
component counts transport calls. -/
def geocode_async (retry_enabled : Bool) (retries : ℤ) (text : String)
    (results : ℕ → SingleResult) (fuel : ℕ) : Option (GeoResult × ℕ) :=
  if pyStrip text = "" then some (.err ("Destination not found."), 0)
  else
    match get_json_with_retry retry_enabled retries results fuel with
    | none => none
    | some (.success js, n) => some (parse_nominatim js, n)
    | some (.failure msg, n) =>
        some (.err (if msg = "" then ("Geocoding failed.") else msg), n)

/-! ## IP geolocation fallback (`Backend._fallback_ip_async`) -/

/-- Final status of the IP fallback chain. -/
inductive IpOutcome where
  | located (lat lon : ℚ) : IpOutcome
  | failed (msg : String) : IpOutcome
  deriving DecidableEq

/-- The fixed ordered endpoint list of `_fallback_ip_async` with each
provider's latitude/longitude field names. -/
def ip_endpoints : List (String × String × String) :=
  [(("https://ipapi.co/json/"), ("latitude"), ("longitude")),
   (("http://ip-api.com/json/"), ("lat"), ("lon"))]

/-- Field lookup as seen by `ok_cb`: `js.get(k)` yields Python `None` both
when the key is absent and when it maps to JSON null. -/
def getNonNull (fields : List (String × Json)) (k : String) : Option Json :=
  match fields.lookup k with
  | some .null => none
  | v => v

/-- Embedding of `ok_cb` in `_fallback_ip_async`: on a JSON object, succeed
with both coordinates when both fields are present, non-null and
`float`-coercible, otherwise signal continue-with-next (`ok none`); the
conversion failures are caught by the surrounding `try`, but `.get` on a
non-dict body raises outside any handler (`error`).  The partial
`_set_latitude` performed before a failing longitude conversion only mutates
UI state and does not affect the chain's outcome. -/
def ip_ok_cb (keys : String × String) (js : Json) : Except String (Option (ℚ × ℚ)) :=
  match js with
  | .obj fields =>
      match getNonNull fields keys.1, getNonNull fields keys.2 with
      | some lat, some lon =>
          match pyFloat lat, pyFloat lon with
          | some a, some b => .ok (some (a, b))
          | _, _ => .ok none
      | _, _ => .ok none
  | _ => .error ("AttributeError")

/-- The `try_next` walk: each endpoint is paired with the result its request
would deliver (`error` = `err_cb`, i.e. the transport-level failure path).
The first parseable success stops the chain; exhaustion yields the fixed
failure message; an uncaught exception aborts (outer `error`). -/
def fallback_ip_chain : List ((String × String) × Except String Json) →
    Except String IpOutcome
  | [] => .ok (.failed ("Could not determine location."))
  | (_, .error _) :: rest => fallback_ip_chain rest
  | (keys, .ok js) :: rest =>
      match ip_ok_cb keys js with
      | .error e => .error e
      | .ok (some p) => .ok (.located p.1 p.2)
      | .ok none => fallback_ip_chain rest

/-- Embedding of `_fallback_ip_async` as a function of the two providers'
responses. -/
def fallback_ip (responses : List (Except String Json)) : Except String IpOutcome :=
  fallback_ip_chain ((ip_endpoints.map fun e => e.2).zip responses)

/-- What one provider attempt contributes: the parsed coordinate pair if its
response is a body whose fields parse, else nothing. -/
def ip_try (keys : String × String) (resp : Except String Json) : Option (ℚ × ℚ) :=
  match resp with
  | .error _ => none
  | .ok js =>
      match ip_ok_cb keys js with
      | .ok (some p) => some p
      | _ => none

/-! ## Polyline simplification (`_perp_dist`, `simplify_path_latlon` in
`backend.py`).  Coordinates and the tolerance live in `ℝ` here because
`math.hypot` takes a square root. -/

/-- A path point, `(lat, lon)` in degrees. -/
abbrev Pt := ℝ × ℝ

/-- Python `math.hypot(x, y)`. -/
noncomputable def hypot (x y : ℝ) : ℝ := Real.sqrt (x * x + y * y)

/-- Embedding of `_perp_dist`: perpendicular distance from `pt` to the
segment `a`-`b`, with the projection parameter clamped to `[0, 1]`. -/
noncomputable def perp_dist (pt a b : Pt) : ℝ :=
  let x := pt.1
  let y := pt.2
  let x1 := a.1
  let y1 := a.2
  let x2 := b.1
  let y2 := b.2
  let dx := x2 - x1
  let dy := y2 - y1
  if dx = 0 ∧ dy = 0 then hypot (x - x1) (y - y1)
  else
    let t := ((x - x1) * dx + (y - y1) * dy) / (dx * dx + dy * dy)
    let tc := max 0 (min 1 t)
    let projx := x1 + tc * dx
    let projy := y1 + tc * dy
    hypot (x - projx) (y - projy)

/-- The scan `for i in range(1, len(points)-1)` of `simplify_path_latlon`,
returning the final `(idx_max, d_max)` state; `idx_max` starts at `-1` and
`d_max` at `0.0`, updated whenever a strictly larger distance is found. -/
noncomputable def rdpMaxLoop (points : List Pt) (a b : Pt) : ℤ × ℝ :=
  (List.range' 1 (points.length - 2)).foldl
    (fun acc i =>
      let d := perp_dist (points.getD i (0, 0)) a b
      if acc.2 < d then ((i : ℤ), d) else acc)
    (-1, 0)

/-- Python slice index: non-negative indices count from the front, negative
ones from the back, clamped into `[0, n]` (natural subtraction clamps at 0,
`List.take`/`List.drop` clamp at `n`). -/
def pyIndex (n : ℕ) (i : ℤ) : ℕ :=
  if i < 0 then n - i.natAbs else i.toNat

/-- Python slice `xs[:i]`. -/
def pyTake {α : Type} (xs : List α) (i : ℤ) : List α :=
  xs.take (pyIndex xs.length i)

/-- Python slice `xs[i:]`. -/
def pyDrop {α : Type} (xs : List α) (i : ℤ) : List α :=
  xs.drop (pyIndex xs.length i)

/-- Invariant propagation along a left fold. -/
theorem foldl_inv {α β : Type} (f : β → α → β) (P : β → Prop) :
    ∀ (l : List α) (init : β), P init → (∀ b a, a ∈ l → P b → P (f b a)) →
      P (l.foldl f init)
  | [], _, h0, _ => h0
  | a :: l, init, h0, hstep =>
      foldl_inv f P l (f init a) (hstep init a (List.mem_cons_self a l) h0)
        (fun b x hx hb => hstep b x (List.mem_cons_of_mem a hx) hb)

/-- The scan either never updates (index `-1`, distance `0`) or settles on a
strict interior index of the point list. -/
theorem rdpMaxLoop_cases (points : List Pt) (a b : Pt) :
    ((rdpMaxLoop points a b).1 = -1 ∧ (rdpMaxLoop points a b).2 = 0) ∨
    (1 ≤ (rdpMaxLoop points a b).1 ∧
      (rdpMaxLoop points a b).1 ≤ (points.length : ℤ) - 2) := by
  unfold rdpMaxLoop
  apply foldl_inv
    (P := fun acc : ℤ × ℝ => (acc.1 = -1 ∧ acc.2 = 0) ∨
      (1 ≤ acc.1 ∧ acc.1 ≤ (points.length : ℤ) - 2))
  · exact Or.inl ⟨rfl, rfl⟩
  · intro acc i hi hP
    have hmem : 1 ≤ i ∧ i < 1 + (points.length - 2) := List.mem_range'_1.mp hi
    have hlen : 3 ≤ points.length := by omega
    dsimp only
    by_cases hlt : acc.2 < perp_dist (points.getD i (0, 0)) a b
    · rw [if_pos hlt]
      refine Or.inr ⟨?_, ?_⟩
      · show (1 : ℤ) ≤ (i : ℤ)
        exact_mod_cast hmem.1
      · show (i : ℤ) ≤ (points.length : ℤ) - 2
        have hle : i ≤ points.length - 2 := by omega
        have h2 : (i : ℤ) ≤ ((points.length - 2 : ℕ) : ℤ) := by exact_mod_cast hle
        omega
    · rw [if_neg hlt]; exact hP

/-- The left slice of the recursive step is strictly shorter. -/
theorem pyTake_length_lt (xs : List Pt) (h3 : 3 ≤ xs.length) (i : ℤ)
    (hi : i = -1 ∨ (1 ≤ i ∧ i ≤ (xs.length : ℤ) - 2)) :
    (pyTake xs (i + 1)).length < xs.length := by
  unfold pyTake pyIndex
  rcases hi with h | ⟨h1, h2⟩
  · subst h
    norm_num
    omega
  · have hnn : ¬(i + 1 < 0) := by omega
    rw [if_neg hnn, List.length_take]
    have : (i + 1).toNat ≤ xs.length - 1 := by omega
    omega

/-- The right slice of the recursive step is strictly shorter. -/
theorem pyDrop_length_lt (xs : List Pt) (h3 : 3 ≤ xs.length) (i : ℤ)
    (hi : i = -1 ∨ (1 ≤ i ∧ i ≤ (xs.length : ℤ) - 2)) :
    (pyDrop xs i).length < xs.length := by
  unfold pyDrop pyIndex
  rcases hi with h | ⟨h1, h2⟩
  · subst h
    norm_num [List.length_drop]
    omega
  · have hnn : ¬(i < 0) := by omega
    rw [if_neg hnn, List.length_drop]
    have : 1 ≤ i.toNat := by omega
    omega

/-- Embedding of `simplify_path_latlon` (recursive Ramer-Douglas-Peucker):
short inputs are returned as-is; otherwise the scan finds the farthest
interior point from the segment joining the first and last points, and the
list is either split there (sharing the split point, `left[:-1] + right`) or
collapsed to its two endpoints. -/
noncomputable def simplify_path_latlon (points : List Pt) (tol_deg : ℝ) : List Pt :=
  if _h2 : points.length ≤ 2 then points
  else
    if _hd : tol_deg < (rdpMaxLoop points points.headI (points.getLastD (0, 0))).2 then
      (simplify_path_latlon
          (pyTake points ((rdpMaxLoop points points.headI (points.getLastD (0, 0))).1 + 1))
          tol_deg).dropLast
        ++ simplify_path_latlon
            (pyDrop points (rdpMaxLoop points points.headI (points.getLastD (0, 0))).1)
            tol_deg
    else [points.headI, points.getLastD (0, 0)]
termination_by points.length
decreasing_by
· apply pyTake_length_lt points (by omega)
  rcases rdpMaxLoop_cases points points.headI (points.getLastD (0, 0)) with h | h
  · exact Or.inl h.1
  · exact Or.inr h
· apply pyDrop_length_lt points (by omega)
  rcases rdpMaxLoop_cases points points.headI (points.getLastD (0, 0)) with h | h
  · exact Or.inl h.1
  · exact Or.inr h

/-! ## Structural lemmas about the simplifier -/

/-- Unfolding of the base case (`len(points) <= 2`). -/
theorem simplify_eq_base (points : List Pt) (tol : ℝ) (h : points.length ≤ 2) :
    simplify_path_latlon points tol = points := by
  rw [simplify_path_latlon]
  exact dif_pos h

/-- Unfolding of the split case (`d_max > tol_deg`). -/
theorem simplify_eq_rec (points : List Pt) (tol : ℝ) (h : ¬points.length ≤ 2)
    (hd : tol < (rdpMaxLoop points points.headI (points.getLastD (0, 0))).2) :
    simplify_path_latlon points tol =
      (simplify_path_latlon
          (pyTake points ((rdpMaxLoop points points.headI (points.getLastD (0, 0))).1 + 1))
          tol).dropLast
        ++ simplify_path_latlon
            (pyDrop points (rdpMaxLoop points points.headI (points.getLastD (0, 0))).1)
            tol := by
  conv_lhs => rw [simplify_path_latlon]
  rw [dif_neg h, dif_pos hd]

/-- Unfolding of the collapse case (`d_max <= tol_deg` on a long input). -/
theorem simplify_eq_collapse (points : List Pt) (tol : ℝ) (h : ¬points.length ≤ 2)
    (hd : ¬tol < (rdpMaxLoop points points.headI (points.getLastD (0, 0))).2) :
    simplify_path_latlon points tol = [points.headI, points.getLastD (0, 0)] := by
  rw [simplify_path_latlon]
  rw [dif_neg h, dif_neg hd]

/-- A nonnegative Python slice index is plain `take`. -/
theorem pyTake_nonneg {α : Type} (xs : List α) (i : ℤ) (h : 0 ≤ i) :
    pyTake xs i = xs.take i.toNat := by
  unfold pyTake pyIndex
  rw [if_neg (by omega)]

/-- A nonnegative Python slice index is plain `drop`. -/
theorem pyDrop_nonneg {α : Type} (xs : List α) (i : ℤ) (h : 0 ≤ i) :
    pyDrop xs i = xs.drop i.toNat := by
  unfold pyDrop pyIndex
  rw [if_neg (by omega)]

/-- The slice `xs[-1:]` keeps exactly the final element. -/
theorem pyDrop_neg_one {α : Type} (xs : List α) :
    pyDrop xs (-1) = xs.drop (xs.length - 1) := by
  unfold pyDrop pyIndex
  rw [if_pos (by omega)]
  rfl

/-- The default value of `getLastD` is irrelevant on nonempty lists. -/
theorem getLastD_irrel {α : Type} (l : List α) (h : l ≠ []) (d₁ d₂ : α) :
    l.getLastD d₁ = l.getLastD d₂ := by
  obtain ⟨y, hy⟩ : ∃ y, l.getLast? = some y := by
    cases hl : l.getLast? with
    | none => exact absurd (List.getLast?_eq_none_iff.mp hl) h
    | some y => exact ⟨y, rfl⟩
  rw [List.getLastD_eq_getLast?, List.getLastD_eq_getLast?, hy]
  rfl

/-- The last element (with default) of a nonempty list is a member. -/
theorem getLastD_mem_self {α : Type} (l : List α) (h : l ≠ []) (d : α) :
    l.getLastD d ∈ l := by
  cases l with
  | nil => exact absurd rfl h
  | cons a t =>
      rw [List.getLastD_cons]
      have := List.getLastD_mem_cons t a
      simpa using this

/-- Appending a nonempty tail moves `getLastD` to the tail. -/
theorem getLastD_append_right {α : Type} (xs ys : List α) (h : ys ≠ []) (d : α) :
    (xs ++ ys).getLastD d = ys.getLastD d := by
  obtain ⟨y, hy⟩ : ∃ y, ys.getLast? = some y := by
    cases hl : ys.getLast? with
    | none => exact absurd (List.getLast?_eq_none_iff.mp hl) h
    | some y => exact ⟨y, rfl⟩
  rw [List.getLastD_eq_getLast?, List.getLastD_eq_getLast?, List.getLast?_append, hy]
  rfl

/-- The head of an append with nonempty first part. -/
theorem headI_append_left {α : Type} [Inhabited α] (xs ys : List α) (h : xs ≠ []) :
    (xs ++ ys).headI = xs.headI := by
  cases xs with
  | nil => exact absurd rfl h
  | cons a t => rfl

/-- Dropping the last element keeps the head of a length-two-or-more list. -/
theorem headI_dropLast {α : Type} [Inhabited α] (l : List α) (h : 2 ≤ l.length) :
    l.dropLast.headI = l.headI := by
  match l, h with
  | a :: b :: t, _ => rw [List.dropLast_cons₂]; rfl

/-- Taking a positive prefix keeps the head. -/
theorem headI_take {α : Type} [Inhabited α] (l : List α) (k : ℕ) (hk : 1 ≤ k)
    (hl : l ≠ []) : (l.take k).headI = l.headI := by
  cases l with
  | nil => exact absurd rfl hl
  | cons a t =>
      cases k with
      | zero => omega
      | succ k => rfl

/-- Removing the last element preserves the sublist relation. -/
theorem sublist_dropLast_mono {α : Type} {l₁ l₂ : List α} (h : l₁ <+ l₂) :
    l₁.dropLast <+ l₂.dropLast := by
  induction h with
  | slnil => exact List.Sublist.refl _
  | cons a h ih =>
      rename_i m₁ m₂
      cases m₂ with
      | nil =>
          have : m₁ = [] := List.sublist_nil.mp h
          subst this
          simp
      | cons b t =>
          rw [List.dropLast_cons₂]
          exact List.Sublist.cons a ih
  | cons₂ a h ih =>
      rename_i m₁ m₂
      cases m₁ with
      | nil => simp
      | cons b t =>
          cases m₂ with
          | nil => exact absurd (List.sublist_nil.mp h) (by simp)
          | cons c u =>
              rw [List.dropLast_cons₂, List.dropLast_cons₂]
              exact List.Sublist.cons₂ a ih

/-- Dropping the last element of a one-longer prefix yields the shorter prefix. -/
theorem dropLast_take_succ {α : Type} (l : List α) (k : ℕ) (hk : k < l.length) :
    (l.take (k + 1)).dropLast = l.take k := by
  rw [List.take_succ, List.getElem?_eq_getElem hk]
  show (List.take k l ++ [l[k]]).dropLast = List.take k l
  exact List.dropLast_concat

/-- Combined structural properties of the simplifier, proved by strong
induction on the list length: the output is a sublist of the input, it is
nonempty with the same last element whenever the input is nonempty, and for
nonnegative tolerances it also keeps the first element and never shrinks a
two-or-more point input below two points. -/
theorem simplify_spec (n : ℕ) :
    ∀ (points : List Pt) (tol : ℝ), points.length ≤ n →
      simplify_path_latlon points tol <+ points ∧
      (points ≠ [] → simplify_path_latlon points tol ≠ []) ∧
      (points ≠ [] →
        (simplify_path_latlon points tol).getLastD (0, 0) = points.getLastD (0, 0)) ∧
      (0 ≤ tol → points ≠ [] →
        (simplify_path_latlon points tol).headI = points.headI) ∧
      (0 ≤ tol → 2 ≤ points.length → 2 ≤ (simplify_path_latlon points tol).length) := by
  induction n with
  | zero =>
      intro points tol hlen
      have hnil : points = [] := List.length_eq_zero.mp (by omega)
      subst hnil
      rw [simplify_eq_base _ _ (by simp)]
      exact ⟨List.Sublist.refl _, fun h => h, fun _ => rfl, fun _ _ => rfl, fun _ h => h⟩
  | succ n IH =>
      intro points tol hlen
      by_cases hb : points.length ≤ 2
      · rw [simplify_eq_base _ _ hb]
        exact ⟨List.Sublist.refl _, fun h => h, fun _ => rfl, fun _ _ => rfl, fun _ h => h⟩
      · have h3 : 3 ≤ points.length := by omega
        have hne : points ≠ [] := by
          intro h
          rw [h] at h3
          simp at h3
        by_cases hd : tol < (rdpMaxLoop points points.headI (points.getLastD (0, 0))).2
        · rw [simplify_eq_rec _ _ hb hd]
          rcases rdpMaxLoop_cases points points.headI (points.getLastD (0, 0)) with
            ⟨hm1, hm2⟩ | ⟨hm1, hm2⟩
          · -- the scan never updated: idx_max = -1, d_max = 0
            rw [hm1]
            rw [show ((-1 : ℤ) + 1) = 0 by norm_num]
            rw [pyTake_nonneg points 0 le_rfl]
            rw [show ((0 : ℤ).toNat) = 0 from rfl, List.take_zero]
            rw [simplify_eq_base [] tol (by simp)]
            rw [List.dropLast_nil, List.nil_append, pyDrop_neg_one]
            have hdroplen : (points.drop (points.length - 1)).length = 1 := by
              rw [List.length_drop]
              omega
            have hdne : points.drop (points.length - 1) ≠ [] := by
              intro hc
              rw [hc] at hdroplen
              simp at hdroplen
            rw [simplify_eq_base _ _ (by rw [List.length_drop]; omega)]
            refine ⟨List.drop_sublist _ _, fun _ => hdne, ?_, ?_, ?_⟩
            · intro _
              conv_rhs => rw [← List.take_append_drop (points.length - 1) points]
              rw [getLastD_append_right _ _ hdne]
            · intro htol _
              exfalso
              rw [hm2] at hd
              linarith
            · intro htol _
              exfalso
              rw [hm2] at hd
              linarith
          · -- interior split index
            obtain ⟨k, hk⟩ : ∃ k : ℕ,
                (rdpMaxLoop points points.headI (points.getLastD (0, 0))).1 = (k : ℤ) :=
              ⟨(rdpMaxLoop points points.headI (points.getLastD (0, 0))).1.toNat,
                (Int.toNat_of_nonneg (by omega)).symm⟩
            have hk1 : 1 ≤ k := by
              rw [hk] at hm1
              exact_mod_cast hm1
            have hk2 : k + 2 ≤ points.length := by
              rw [hk] at hm2
              omega
            rw [hk]
            rw [pyTake_nonneg points _ (by omega), pyDrop_nonneg points _ (by omega)]
            rw [show (((k : ℤ) + 1).toNat) = k + 1 by omega]
            rw [show (((k : ℤ)).toNat) = k by omega]
            have hkd : k < points.length := by omega
            have hlenL : (points.take (k + 1)).length ≤ n := by
              rw [List.length_take]
              omega
            have hlenR : (points.drop k).length ≤ n := by
              rw [List.length_drop]
              omega
            obtain ⟨Lsub, Lne, Llast, Lhead, Llen⟩ := IH (points.take (k + 1)) tol hlenL
            obtain ⟨Rsub, Rne, Rlast, Rhead, Rlen⟩ := IH (points.drop k) tol hlenR
            have hLinne : points.take (k + 1) ≠ [] := by
              intro hc
              have hcl := congrArg List.length hc
              rw [List.length_take, List.length_nil] at hcl
              omega
            have hRinne : points.drop k ≠ [] := by
              intro hc
              have hcl := congrArg List.length hc
              rw [List.length_drop, List.length_nil] at hcl
              omega
            refine ⟨?_, ?_, ?_, ?_, ?_⟩
            · have h1 : (simplify_path_latlon (points.take (k + 1)) tol).dropLast <+
                  points.take k := by
                have hmono := sublist_dropLast_mono Lsub
                rwa [dropLast_take_succ _ _ hkd] at hmono
              have happ := List.Sublist.append h1 Rsub
              rwa [List.take_append_drop] at happ
            · intro _
              intro hc
              rcases List.append_eq_nil.mp hc with ⟨_, h2⟩
              exact (Rne hRinne) h2
            · intro _
              rw [getLastD_append_right _ _ (Rne hRinne)]
              rw [Rlast hRinne]
              conv_rhs => rw [← List.take_append_drop k points]
              rw [getLastD_append_right _ _ hRinne]
            · intro htol _
              have hL2 : 2 ≤ (simplify_path_latlon (points.take (k + 1)) tol).length :=
                Llen htol (by rw [List.length_take]; omega)
              have hdlne : (simplify_path_latlon (points.take (k + 1)) tol).dropLast ≠ [] := by
                intro hc
                have hcl := congrArg List.length hc
                rw [List.length_dropLast] at hcl
                simp at hcl
                omega
              rw [headI_append_left _ _ hdlne]
              rw [headI_dropLast _ hL2]
              rw [Lhead htol hLinne]
              exact headI_take points (k + 1) (by omega) hne
            · intro htol _
              have hR2 : 2 ≤ (simplify_path_latlon (points.drop k) tol).length :=
                Rlen htol (by rw [List.length_drop]; omega)
              rw [List.length_append]
              omega
        · rw [simplify_eq_collapse _ _ hb hd]
          obtain ⟨p, rest, hp⟩ : ∃ p rest, points = p :: rest := by
            cases points with
            | nil => simp at h3
            | cons p rest => exact ⟨p, rest, rfl⟩
          subst hp
          have hrest : rest ≠ [] := by
            intro hc
            rw [hc] at h3
            simp at h3
          refine ⟨?_, by simp, fun _ => rfl, fun _ _ => rfl, fun _ _ => by simp⟩
          show [(p :: rest).headI, (p :: rest).getLastD (0, 0)] <+ p :: rest
          rw [show (p :: rest).headI = p from rfl]
          rw [List.getLastD_cons]
          exact List.Sublist.cons₂ p
            (List.singleton_sublist.mpr (getLastD_mem_self rest hrest p))

/-! ## Perpendicular distance lemmas and concrete evaluations -/

/-- Zeta-reduced form of `perp_dist`. -/
theorem perp_dist_def (pt a b : Pt) :
    perp_dist pt a b =
      if b.1 - a.1 = 0 ∧ b.2 - a.2 = 0 then hypot (pt.1 - a.1) (pt.2 - a.2)
      else
        hypot
          (pt.1 - (a.1 +
            max 0 (min 1 (((pt.1 - a.1) * (b.1 - a.1) + (pt.2 - a.2) * (b.2 - a.2)) /
              ((b.1 - a.1) * (b.1 - a.1) + (b.2 - a.2) * (b.2 - a.2)))) * (b.1 - a.1)))
          (pt.2 - (a.2 +
            max 0 (min 1 (((pt.1 - a.1) * (b.1 - a.1) + (pt.2 - a.2) * (b.2 - a.2)) /
              ((b.1 - a.1) * (b.1 - a.1) + (b.2 - a.2) * (b.2 - a.2)))) * (b.2 - a.2))) :=
  rfl

/-- The zero distance. -/
theorem hypot_zero : hypot 0 0 = 0 := by
  simp [hypot]

/-- A point of the segment from `a` to `b` (affine parameter in `[0, 1]`) has
perpendicular distance zero: the unclamped projection parameter is the
parameter itself, so the clamp is inert and the projection recovers the
point. -/
theorem perp_dist_eq_zero_of_seg (p a b : Pt) (s : ℝ) (h0 : 0 ≤ s) (h1 : s ≤ 1)
    (hp1 : p.1 = a.1 + s * (b.1 - a.1)) (hp2 : p.2 = a.2 + s * (b.2 - a.2)) :
    perp_dist p a b = 0 := by
  rw [perp_dist_def]
  by_cases hz : b.1 - a.1 = 0 ∧ b.2 - a.2 = 0
  · rw [if_pos hz]
    rw [show p.1 - a.1 = 0 by rw [hp1, hz.1]; ring]
    rw [show p.2 - a.2 = 0 by rw [hp2, hz.2]; ring]
    exact hypot_zero
  · rw [if_neg hz]
    have hD : 0 < (b.1 - a.1) * (b.1 - a.1) + (b.2 - a.2) * (b.2 - a.2) := by
      rcases not_and_or.mp hz with h | h
      · have := mul_self_pos.mpr h
        nlinarith [mul_self_nonneg (b.2 - a.2)]
      · have := mul_self_pos.mpr h
        nlinarith [mul_self_nonneg (b.1 - a.1)]
    have hnum : (p.1 - a.1) * (b.1 - a.1) + (p.2 - a.2) * (b.2 - a.2) =
        s * ((b.1 - a.1) * (b.1 - a.1) + (b.2 - a.2) * (b.2 - a.2)) := by
      rw [hp1, hp2]
      ring
    rw [hnum, mul_div_assoc, div_self (ne_of_gt hD), mul_one]
    rw [min_eq_right h1, max_eq_right h0]
    rw [show p.1 - (a.1 + s * (b.1 - a.1)) = 0 by rw [hp1]; ring]
    rw [show p.2 - (a.2 + s * (b.2 - a.2)) = 0 by rw [hp2]; ring]
    exact hypot_zero

/-- If every point of the list has zero perpendicular distance to the
`a`-`b` segment, the scan never updates its state. -/
theorem rdpMaxLoop_all_zero (points : List Pt) (a b : Pt)
    (h : ∀ p ∈ points, perp_dist p a b = 0) : rdpMaxLoop points a b = (-1, 0) := by
  unfold rdpMaxLoop
  apply foldl_inv (P := fun acc : ℤ × ℝ => acc = (-1, 0))
  · rfl
  · intro acc i hi hacc
    have hil : i < points.length := by
      have := List.mem_range'_1.mp hi
      omega
    have hgd : points.getD i (0, 0) = points[i] := by
      rw [List.getD_eq_getElem?_getD, List.getElem?_eq_getElem hil]
      rfl
    dsimp only
    rw [hgd, h points[i] (List.getElem_mem hil), hacc]
    rw [if_neg (lt_irrefl (0 : ℝ))]

/-- The interior point of the vertical three-point path lies on the segment,
so its distance is zero. -/
theorem perp_eval_vert : perp_dist ((0 : ℝ), (1 : ℝ)) (0, 0) (0, 2) = 0 := by
  apply perp_dist_eq_zero_of_seg ((0 : ℝ), (1 : ℝ)) (0, 0) (0, 2) (1 / 2)
  · norm_num
  · norm_num
  · norm_num
  · norm_num

/-- The scan on the vertical three-point path never updates. -/
theorem rdp_eval_vert :
    rdpMaxLoop [((0 : ℝ), (0 : ℝ)), (0, 1), (0, 2)] (0, 0) (0, 2) = (-1, 0) := by
  apply rdpMaxLoop_all_zero
  intro p hp
  simp only [List.mem_cons, List.not_mem_nil, or_false] at hp
  rcases hp with rfl | rfl | rfl
  · exact perp_dist_eq_zero_of_seg _ _ _ 0 le_rfl (by norm_num) (by norm_num) (by norm_num)
  · exact perp_eval_vert
  · exact perp_dist_eq_zero_of_seg _ _ _ 1 (by norm_num) le_rfl (by norm_num) (by norm_num)

/-- Evaluation of the simplifier on a vertical three-point path with the
negative tolerance `-1`: the scan leaves `idx_max = -1`, `0 > -1` forces the
split branch, and the Python slices `points[:0]` and `points[-1:]` leave only
the final point. -/
theorem simplify_eval_neg_tol :
    simplify_path_latlon [((0 : ℝ), (0 : ℝ)), (0, 1), (0, 2)] (-1) = [((0 : ℝ), (2 : ℝ))] := by
  have hhead : ([((0 : ℝ), (0 : ℝ)), (0, 1), (0, 2)] : List Pt).headI = ((0 : ℝ), (0 : ℝ)) := rfl
  have hlast : ([((0 : ℝ), (0 : ℝ)), (0, 1), (0, 2)] : List Pt).getLastD (0, 0) =
      ((0 : ℝ), (2 : ℝ)) := rfl
  have hr : rdpMaxLoop [((0 : ℝ), (0 : ℝ)), (0, 1), (0, 2)]
      (([((0 : ℝ), (0 : ℝ)), (0, 1), (0, 2)] : List Pt).headI)
      (([((0 : ℝ), (0 : ℝ)), (0, 1), (0, 2)] : List Pt).getLastD (0, 0)) = (-1, 0) := by
    rw [hhead, hlast]
    exact rdp_eval_vert
  have hlen : ¬([((0 : ℝ), (0 : ℝ)), (0, 1), (0, 2)] : List Pt).length ≤ 2 := by
    norm_num
  have hd : (-1 : ℝ) <
      (rdpMaxLoop [((0 : ℝ), (0 : ℝ)), (0, 1), (0, 2)]
        (([((0 : ℝ), (0 : ℝ)), (0, 1), (0, 2)] : List Pt).headI)
        (([((0 : ℝ), (0 : ℝ)), (0, 1), (0, 2)] : List Pt).getLastD (0, 0))).2 := by
    rw [hr]
    norm_num
  rw [simplify_eq_rec _ _ hlen hd, hr]
  dsimp only
  rw [show ((-1 : ℤ) + 1) = 0 by norm_num]
  rw [pyTake_nonneg _ _ le_rfl, pyDrop_neg_one]
  rw [show ((0 : ℤ).toNat) = 0 from rfl, List.take_zero]
  rw [show ([((0 : ℝ), (0 : ℝ)), (0, 1), (0, 2)] : List Pt).length - 1 = 2 from rfl]
  rw [show ([((0 : ℝ), (0 : ℝ)), (0, 1), (0, 2)] : List Pt).drop 2 = [((0 : ℝ), (2 : ℝ))]
    from rfl]
  rw [simplify_eq_base [] _ (by simp), simplify_eq_base [((0 : ℝ), (2 : ℝ))] _ (by norm_num)]
  rfl

/-- Horizontal distance evaluates to the horizontal offset. -/
theorem hypot_x_zero (x : ℝ) (h : 0 ≤ x) : hypot x 0 = x := by
  unfold hypot
  rw [show x * x + 0 * 0 = x * x by ring]
  exact Real.sqrt_mul_self h

/-- Vertical distance evaluates to the vertical offset. -/
theorem hypot_zero_y (y : ℝ) (h : 0 ≤ y) : hypot 0 y = y := by
  unfold hypot
  rw [show (0 : ℝ) * 0 + y * y = y * y by ring]
  exact Real.sqrt_mul_self h

/-- A collinear point beyond the segment end: the clamped projection is the
endpoint `(2, 0)`, giving distance `3` rather than `0`. -/
theorem perp_eval_back : perp_dist ((5 : ℝ), (0 : ℝ)) (0, 0) (2, 0) = 3 := by
  rw [perp_dist_def, if_neg (by norm_num)]
  norm_num [min_def, max_def]
  exact hypot_x_zero 3 (by norm_num)

/-- The apex of the triangular path has distance `1` from its base. -/
theorem perp_eval_mid : perp_dist ((1 : ℝ), (1 : ℝ)) (0, 0) (2, 0) = 1 := by
  rw [perp_dist_def, if_neg (by norm_num)]
  norm_num [min_def, max_def]
  exact hypot_zero_y 1 (by norm_num)

/-- Scan evaluation on the collinear-but-backtracking path. -/
theorem rdp_eval_back :
    rdpMaxLoop [((0 : ℝ), (0 : ℝ)), (5, 0), (2, 0)] (0, 0) (2, 0) = (1, 3) := by
  unfold rdpMaxLoop
  rw [show ([((0 : ℝ), (0 : ℝ)), (5, 0), (2, 0)] : List Pt).length - 2 = 1 from rfl]
  rw [show List.range' 1 1 = [1] from rfl]
  rw [List.foldl_cons, List.foldl_nil]
  dsimp only
  rw [show ([((0 : ℝ), (0 : ℝ)), (5, 0), (2, 0)] : List Pt).getD 1 (0, 0) =
    ((5 : ℝ), (0 : ℝ)) from rfl]
  rw [perp_eval_back]
  rw [if_pos (by norm_num : (0 : ℝ) < 3)]
  norm_num

/-- Scan evaluation on the triangular path. -/
theorem rdp_eval_tri :
    rdpMaxLoop [((0 : ℝ), (0 : ℝ)), (1, 1), (2, 0)] (0, 0) (2, 0) = (1, 1) := by
  unfold rdpMaxLoop
  rw [show ([((0 : ℝ), (0 : ℝ)), (1, 1), (2, 0)] : List Pt).length - 2 = 1 from rfl]
  rw [show List.range' 1 1 = [1] from rfl]
  rw [List.foldl_cons, List.foldl_nil]
  dsimp only
  rw [show ([((0 : ℝ), (0 : ℝ)), (1, 1), (2, 0)] : List Pt).getD 1 (0, 0) =
    ((1 : ℝ), (1 : ℝ)) from rfl]
  rw [perp_eval_mid]
  rw [if_pos (by norm_num : (0 : ℝ) < 1)]
  norm_num

/-- Evaluation of the simplifier on the collinear-but-backtracking path with
tolerance `0`: the clamped distance of the middle point is `3 > 0`, so the
path is split at it and every point survives. -/
theorem simplify_eval_back :
    simplify_path_latlon [((0 : ℝ), (0 : ℝ)), (5, 0), (2, 0)] 0 =
      [((0 : ℝ), (0 : ℝ)), (5, 0), (2, 0)] := by
  have hr : rdpMaxLoop [((0 : ℝ), (0 : ℝ)), (5, 0), (2, 0)]
      (([((0 : ℝ), (0 : ℝ)), (5, 0), (2, 0)] : List Pt).headI)
      (([((0 : ℝ), (0 : ℝ)), (5, 0), (2, 0)] : List Pt).getLastD (0, 0)) = (1, 3) := by
    rw [show ([((0 : ℝ), (0 : ℝ)), (5, 0), (2, 0)] : List Pt).headI =
      ((0 : ℝ), (0 : ℝ)) from rfl]
    rw [show ([((0 : ℝ), (0 : ℝ)), (5, 0), (2, 0)] : List Pt).getLastD (0, 0) =
      ((2 : ℝ), (0 : ℝ)) from rfl]
    exact rdp_eval_back
  have hlen : ¬([((0 : ℝ), (0 : ℝ)), (5, 0), (2, 0)] : List Pt).length ≤ 2 := by
    norm_num
  have hd : (0 : ℝ) <
      (rdpMaxLoop [((0 : ℝ), (0 : ℝ)), (5, 0), (2, 0)]
        (([((0 : ℝ), (0 : ℝ)), (5, 0), (2, 0)] : List Pt).headI)
        (([((0 : ℝ), (0 : ℝ)), (5, 0), (2, 0)] : List Pt).getLastD (0, 0))).2 := by
    rw [hr]
    norm_num
  rw [simplify_eq_rec _ _ hlen hd, hr]
  dsimp only
  rw [show ((1 : ℤ) + 1) = 2 by norm_num]
  rw [pyTake_nonneg _ _ (by norm_num), pyDrop_nonneg _ _ (by norm_num)]
  rw [show ((2 : ℤ).toNat) = 2 from rfl, show ((1 : ℤ).toNat) = 1 from rfl]
  rw [show ([((0 : ℝ), (0 : ℝ)), (5, 0), (2, 0)] : List Pt).take 2 =
    [((0 : ℝ), (0 : ℝ)), (5, 0)] from rfl]
  rw [show ([((0 : ℝ), (0 : ℝ)), (5, 0), (2, 0)] : List Pt).drop 1 =
    [((5 : ℝ), (0 : ℝ)), (2, 0)] from rfl]
  rw [simplify_eq_base [((0 : ℝ), (0 : ℝ)), (5, 0)] _ (by norm_num)]
  rw [simplify_eq_base [((5 : ℝ), (0 : ℝ)), (2, 0)] _ (by norm_num)]
  rfl

/-! ## Pipeline helper lemmas -/

/-- With retry enabled and a transport that fails with status 503 on every
attempt, the attempt loop never resolves, whatever the remaining-attempt
counter or the attempt index: `attempts_left` is decremented but never
consulted. -/
theorem get_json_attempts_all503 (al : ℤ) (i fuel : ℕ) :
    get_json_attempts true (fun _ => .error (("HTTP 503"), some 503)) al i fuel = none := by
  induction fuel generalizing al i with
  | zero => rfl
  | succ fuel ih => exact ih (al - 1) (i + 1)

/-- Characterization of the transient test on present status codes. -/
theorem transient_some (v : ℤ) :
    transient (some v) = true ↔ v = 0 ∨ v = 429 ∨ (500 ≤ v ∧ v < 600) := by
  simp [transient]
  tauto

/-! ## Claim C1 -/

/-- Claim C1 (code bug): with `retryEnabled=true, maxRetries=1` and a
transport answering 503 on every attempt, the claim requires exactly 2
Transport calls followed by a Failure outcome; the code instead retries
without bound, because `attempts_left` is decremented but never consulted by
`_maybe_retry`.  Formally: for every attempt budget `fuel`, the request is
still unresolved — in particular it has not resolved after 2 calls. -/
theorem c1_retry_loop_never_resolves (fuel : ℕ) :
    get_json_with_retry true 1 (fun _ => .error (("HTTP 503"), some 503)) fuel = none :=
  get_json_attempts_all503 _ 0 fuel

/-! ## Claim C2 -/

/-- Claim C2 (counterexample): an attempt that carries a transport-level
error together with HTTP status 200 is classified Fatal by the code, while
the claim's rules — a transport error routes to Transient only without a
status, and a status in [200,300) yields Success — classify it as Success
(or, reading rule 1 as covering every transport error, as Transient); in
either reading the claim disagrees with the code at this input. -/
theorem c2_counterexample :
    classify true (some 200) = Classification.Fatal ∧
      Classification.Fatal ≠ Classification.Success ∧
      Classification.Fatal ≠ Classification.Transient := by
  refine ⟨?_, by decide, by decide⟩
  decide

/-- Claim C2 (amended): the code's classification, as a function of the
transport-error flag and the optional status: with a transport error the
attempt is Transient when the status is absent, 0, 429 or in [500,600) and
Fatal otherwise (even for a 2xx status); without a transport error a 2xx or
absent status is Success, status 0, 429 or [500,600) is Transient, and any
other status is Fatal. -/
theorem c2_classification_amended (e : Bool) (s : Option ℤ) :
    classify e s = specClassify e s := by
  cases s with
  | none => cases e <;> rfl
  | some v =>
      cases e with
      | false =>
          simp only [classify, specClassify, Bool.false_eq_true, if_false, if_true]
          by_cases h2 : 200 ≤ v ∧ v < 300
          · rw [if_pos h2, if_pos h2]
          · rw [if_neg h2, if_neg h2]
            by_cases ht : v = 0 ∨ v = 429 ∨ (500 ≤ v ∧ v < 600)
            · rw [if_pos ((transient_some v).mpr ht), if_pos ht]
            · rw [if_neg (fun hc => ht ((transient_some v).mp hc)), if_neg ht]
      | true =>
          simp only [classify, specClassify, if_true]
          by_cases ht : v = 0 ∨ v = 429 ∨ (500 ≤ v ∧ v < 600)
          · rw [if_pos ((transient_some v).mpr ht), if_pos ht]
          · rw [if_neg (fun hc => ht ((transient_some v).mp hc)), if_neg ht]

/-- Claim C2 (witness for the amended theorem at a concrete input). -/
theorem c2_classification_amended_witness :
    classify false (some 503) = specClassify false (some 503) :=
  c2_classification_amended false (some 503)

/-! ## Claim C3 -/

/-- Claim C3: with retry disabled, a 503 on the first attempt resolves the
request as a Failure after exactly one Transport call, whatever the
configured retry count. -/
theorem c3_single_503_fails_once (retries : ℤ) (results : ℕ → SingleResult)
    (msg : String) (fuel : ℕ) (hres : results 0 = .error (msg, some 503))
    (hfuel : 1 ≤ fuel) :
    get_json_with_retry false retries results fuel =
      some (.failure (if msg = "" then ("Network error.") else msg), 1) := by
  obtain ⟨f, rfl⟩ : ∃ f, fuel = f + 1 := ⟨fuel - 1, by omega⟩
  show get_json_attempts false results (1 + if false then retries else 0) 0 (f + 1) = _
  rw [get_json_attempts, hres]
  rfl

/-- Claim C3 (witness): concrete run with `retries = 7`. -/
theorem c3_single_503_fails_once_witness :
    get_json_with_retry false 7 (fun _ => .error (("HTTP 503"), some 503)) 1 =
      some (.failure ("HTTP 503"), 1) := by
  have h := c3_single_503_fails_once 7 (fun _ => .error (("HTTP 503"), some 503))
    ("HTTP 503") 1 rfl (by norm_num)
  rw [if_neg (by decide)] at h
  exact h

/-! ## Claim C9 -/

/-- Claim C9: a geocode request whose text is blank after stripping is
rejected immediately with the fixed message, the error callback firing once
and no Transport call ever being issued (call counter 0). -/
theorem c9_blank_geocode (retry_enabled : Bool) (retries : ℤ) (text : String)
    (results : ℕ → SingleResult) (fuel : ℕ) (h : pyStrip text = "") :
    geocode_async retry_enabled retries text results fuel =
      some (.err ("Destination not found."), 0) := by
  unfold geocode_async
  rw [if_pos h]

/-- Claim C9 (witness): whitespace-only text, never touching the transport. -/
theorem c9_blank_geocode_witness :
    geocode_async true 1 ("   ") (fun _ => .ok (Json.obj [])) 5 =
      some (.err ("Destination not found."), 0) :=
  c9_blank_geocode true 1 ("   ") (fun _ => .ok (Json.obj [])) 5 (by decide)

/-! ## Adapter helper lemmas -/

/-- The coordinate comprehension on a wire-shaped pair list swaps every pair. -/
theorem mapPath_map (coords : List (ℚ × ℚ)) :
    mapPath (coords.map fun c => Json.arr [.num c.1, .num c.2]) =
      some (coords.map fun c => (c.2, c.1)) := by
  induction coords with
  | nil => rfl
  | cons c rest ih =>
      simp only [List.map_cons, mapPath, pyFloat, ih]

/-- Full evaluation of the route parser body on a provider-shaped response. -/
theorem parse_route_core_mk (coords : List (ℚ × ℚ)) (d t : ℚ) :
    parse_route_core (mkRouteJson coords d t) =
      some (.ok (coords.map fun c => (c.2, c.1)) d t) := by
  cases coords with
  | nil => rfl
  | cons c rest =>
      show (match mapPath (((c :: rest).map fun p => Json.arr [.num p.1, .num p.2])),
              pyFloat (Json.num d), pyFloat (Json.num t) with
        | some path, some dd, some tt => some (RouteParse.ok path dd tt)
        | _, _, _ => none) =
        some (.ok ((c :: rest).map fun p => (p.2, p.1)) d t)
      rw [mapPath_map]
      rfl

/-- The route adapter on a provider-shaped response: path swapped, distance
and duration passed through. -/
theorem parse_route_mk (coords : List (ℚ × ℚ)) (d t : ℚ) :
    parse_route (mkRouteJson coords d t) =
      .ok (coords.map fun c => (c.2, c.1)) d t := by
  unfold parse_route
  rw [parse_route_core_mk]
  rfl

/-- The coordinate pair `ok_cb` extracts from an object body, if any. -/
def ip_extract (keys : String × String) (fields : List (String × Json)) :
    Option (ℚ × ℚ) :=
  match getNonNull fields keys.1, getNonNull fields keys.2 with
  | some lat, some lon =>
      match pyFloat lat, pyFloat lon with
      | some a, some b => some (a, b)
      | _, _ => none
  | _, _ => none

/-- On an object body, `ok_cb` never escapes with an exception. -/
theorem ip_ok_cb_obj (keys : String × String) (fields : List (String × Json)) :
    ip_ok_cb keys (.obj fields) = .ok (ip_extract keys fields) := by
  dsimp only [ip_ok_cb, ip_extract]
  cases getNonNull fields keys.1 <;> cases getNonNull fields keys.2 <;> try rfl
  all_goals rename_i lat lon
  all_goals dsimp only
  all_goals cases pyFloat lat <;> cases pyFloat lon <;> rfl

/-- What one attempt contributes on an object body. -/
theorem ip_try_ok_obj (keys : String × String) (fields : List (String × Json)) :
    ip_try keys (Except.ok (Json.obj fields)) = ip_extract keys fields := by
  dsimp only [ip_try]
  rw [ip_ok_cb_obj]
  cases ip_extract keys fields <;> rfl

/-- The fallback walk, on object-shaped bodies, returns the first
extractable coordinate pair and the fixed failure message exactly on
exhaustion. -/
theorem fallback_chain_eq (pairs : List ((String × String) × Except String Json))
    (hobj : ∀ keys js, (keys, Except.ok js) ∈ pairs → ∃ fields, js = Json.obj fields) :
    fallback_ip_chain pairs =
      .ok (match pairs.findSome? (fun p => ip_try p.1 p.2) with
        | some p => .located p.1 p.2
        | none => .failed ("Could not determine location.")) := by
  induction pairs with
  | nil => rfl
  | cons hd rest ih =>
      obtain ⟨keys, resp⟩ := hd
      have hrest : ∀ keys js, (keys, Except.ok js) ∈ rest → ∃ fields, js = Json.obj fields :=
        fun k j hj => hobj k j (List.mem_cons_of_mem _ hj)
      cases resp with
      | error e =>
          simp only [fallback_ip_chain, List.findSome?_cons]
          rw [ih hrest]
          rfl
      | ok js =>
          obtain ⟨fields, rfl⟩ := hobj keys js (List.mem_cons_self _ _)
          simp only [fallback_ip_chain, List.findSome?_cons]
          rw [ip_ok_cb_obj]
          simp only [ip_try_ok_obj]
          cases hx : ip_extract keys fields with
          | some p => rfl
          | none => rw [ih hrest]

/-! ## Claim C6 -/

/-- Claim C6: the route adapter swaps the provider's [longitude, latitude]
pair order into (latitude, longitude) for every point of the parsed path;
in particular the two-point scenario from the spec parses to the swapped
path with distance and duration passed through. -/
theorem c6_route_adapter_swaps :
    (∀ (coords : List (ℚ × ℚ)) (d t : ℚ),
      parse_route (mkRouteJson coords d t) = .ok (coords.map fun c => (c.2, c.1)) d t) ∧
    parse_route (mkRouteJson [(10.5, 52.3), (10.6, 52.4)] 1000 60) =
      .ok [(52.3, 10.5), (52.4, 10.6)] 1000 60 := by
  refine ⟨parse_route_mk, ?_⟩
  rw [parse_route_mk]
  rfl

/-! ## Claim C7 -/

/-- Claim C7: the IP fallback walks its fixed ordered endpoint list
sequentially and resolves to the coordinate extracted from the first
provider whose (object-shaped) response carries both field names with
parseable numeric values; a transport failure or an unparseable body moves
on to the next provider, and the fixed failure message is produced exactly
when no provider yields a parseable pair. -/
theorem c7_ip_fallback_chain (responses : List (Except String Json))
    (_hlen : responses.length = ip_endpoints.length)
    (hobj : ∀ js, Except.ok js ∈ responses → ∃ fields, js = Json.obj fields) :
    fallback_ip responses =
      .ok (match ((ip_endpoints.map fun e => e.2).zip responses).findSome?
            (fun p => ip_try p.1 p.2) with
        | some p => .located p.1 p.2
        | none => .failed ("Could not determine location.")) := by
  unfold fallback_ip
  apply fallback_chain_eq
  intro keys js hmem
  exact hobj js (List.of_mem_zip hmem).2

/-- Claim C7 (witness): the spec's scenario — the first provider's body
misses the expected fields, the second parses, and the chain resolves to
the second provider's coordinate. -/
theorem c7_ip_fallback_chain_witness :
    fallback_ip [Except.ok (Json.obj [(("foo"), Json.num 1)]),
        Except.ok (Json.obj [(("lat"), Json.num 10), (("lon"), Json.num 20)])] =
      .ok (.located 10 20) := by
  have h := c7_ip_fallback_chain
    [Except.ok (Json.obj [(("foo"), Json.num 1)]),
      Except.ok (Json.obj [(("lat"), Json.num 10), (("lon"), Json.num 20)])]
    rfl ?_
  · rw [h]
    rfl
  · intro js hmem
    simp only [List.mem_cons, List.not_mem_nil, or_false] at hmem
    rcases hmem with h1 | h1
    · exact ⟨_, Except.ok.inj h1⟩
    · exact ⟨_, Except.ok.inj h1⟩

/-! ## Claim C8 -/

/-- Claim C8 (counterexample): the geocode adapter returns an out-of-range
latitude 200 (and longitude 300) as a success; no parse error is raised,
contradicting the claimed range invariant. -/
theorem c8_counterexample :
    parse_nominatim (.arr [.obj [(("lat"), .num 200), (("lon"), .num 300)]]) =
      .ok 200 300 ∧ ¬((200 : ℚ) ≤ 90) := by
  constructor
  · rfl
  · norm_num

/-- Claim C8 (amended): the adapters validate numeric parseability only —
any parseable latitude/longitude pair, however far outside
[-90, 90] × [-180, 180], is returned unchanged as a success by both the
geocode and the route adapter. -/
theorem c8_no_range_validation (la lo d t : ℚ) :
    parse_nominatim (.arr [.obj [(("lat"), .num la), (("lon"), .num lo)]]) =
      .ok la lo ∧
    parse_route (mkRouteJson [(lo, la)] d t) = .ok [(la, lo)] d t := by
  constructor
  · rfl
  · exact parse_route_mk [(lo, la)] d t

/-! ## Claim C4 -/

/-- Claim C4 (counterexample): with the negative tolerance `-1` on a
three-point path whose interior point is on the segment, the scan leaves
`idx_max = -1`, the comparison `0 > -1` forces a split, and the Python
slices `points[:0]`/`points[-1:]` drop the first point: the output's first
element differs from the input's first element. -/
theorem c4_counterexample :
    simplify_path_latlon [((0 : ℝ), (0 : ℝ)), (0, 1), (0, 2)] (-1) = [((0 : ℝ), (2 : ℝ))] ∧
    (simplify_path_latlon [((0 : ℝ), (0 : ℝ)), (0, 1), (0, 2)] (-1)).headI ≠
      ([((0 : ℝ), (0 : ℝ)), (0, 1), (0, 2)] : List Pt).headI := by
  refine ⟨simplify_eval_neg_tol, ?_⟩
  rw [simplify_eval_neg_tol]
  intro h
  have h2 : ((0 : ℝ), (2 : ℝ)) = ((0 : ℝ), (0 : ℝ)) := h
  have h3 := congrArg Prod.snd h2
  norm_num at h3

/-- Claim C4 (amended): on every nonempty input the simplifier returns an
order-preserving sublist of the input of no greater length, nonempty, with
the last element preserved; the first element is preserved as well provided
the tolerance is nonnegative (a negative tolerance can drop it). -/
theorem c4_simplify_shape (points : List Pt) (tol : ℝ) (hne : points ≠ []) :
    simplify_path_latlon points tol <+ points ∧
    (simplify_path_latlon points tol).length ≤ points.length ∧
    simplify_path_latlon points tol ≠ [] ∧
    (simplify_path_latlon points tol).getLastD (0, 0) = points.getLastD (0, 0) ∧
    (0 ≤ tol → (simplify_path_latlon points tol).headI = points.headI) := by
  obtain ⟨hsub, hne2, hlast, hhead, _⟩ := simplify_spec points.length points tol le_rfl
  exact ⟨hsub, hsub.length_le, hne2 hne, hlast hne, fun ht => hhead ht hne⟩

/-- Claim C4 (witness): the amended statement at a concrete two-point input
and tolerance `0`. -/
theorem c4_simplify_shape_witness :
    simplify_path_latlon [((0 : ℝ), (0 : ℝ)), (1, 1)] 0 <+ [((0 : ℝ), (0 : ℝ)), (1, 1)] ∧
    (simplify_path_latlon [((0 : ℝ), (0 : ℝ)), (1, 1)] 0).length ≤
      ([((0 : ℝ), (0 : ℝ)), (1, 1)] : List Pt).length ∧
    simplify_path_latlon [((0 : ℝ), (0 : ℝ)), (1, 1)] 0 ≠ [] ∧
    (simplify_path_latlon [((0 : ℝ), (0 : ℝ)), (1, 1)] 0).getLastD (0, 0) =
      ([((0 : ℝ), (0 : ℝ)), (1, 1)] : List Pt).getLastD (0, 0) ∧
    ((0 : ℝ) ≤ 0 → (simplify_path_latlon [((0 : ℝ), (0 : ℝ)), (1, 1)] 0).headI =
      ([((0 : ℝ), (0 : ℝ)), (1, 1)] : List Pt).headI) :=
  c4_simplify_shape [((0 : ℝ), (0 : ℝ)), (1, 1)] 0 (by simp)

/-! ## Claim C5 -/

/-- Claim C5 (counterexample): a perfectly collinear sequence (all points on
the line `lon = 0`) of three points that doubles back: the middle point
projects beyond the segment end, the clamped distance is `3 > 0`, and
`simplify(points, 0)` returns all three points instead of `[first, last]`. -/
theorem c5_counterexample :
    (∀ p ∈ ([((0 : ℝ), (0 : ℝ)), (5, 0), (2, 0)] : List Pt), p.2 = 0) ∧
    3 ≤ ([((0 : ℝ), (0 : ℝ)), (5, 0), (2, 0)] : List Pt).length ∧
    simplify_path_latlon [((0 : ℝ), (0 : ℝ)), (5, 0), (2, 0)] 0 =
      [((0 : ℝ), (0 : ℝ)), (5, 0), (2, 0)] ∧
    simplify_path_latlon [((0 : ℝ), (0 : ℝ)), (5, 0), (2, 0)] 0 ≠
      [([((0 : ℝ), (0 : ℝ)), (5, 0), (2, 0)] : List Pt).headI,
        ([((0 : ℝ), (0 : ℝ)), (5, 0), (2, 0)] : List Pt).getLastD (0, 0)] := by
  refine ⟨?_, by norm_num, simplify_eval_back, ?_⟩
  · intro p hp
    simp only [List.mem_cons, List.not_mem_nil, or_false] at hp
    rcases hp with rfl | rfl | rfl <;> rfl
  · rw [simplify_eval_back]
    intro h
    have h2 := congrArg List.length h
    norm_num at h2

/-- Claim C5 (amended): if every point of a three-or-more point sequence
lies on the straight segment joining the first and the last point (affine
parameter within `[0, 1]`), then `simplify(points, 0)` collapses the
sequence to exactly `[first, last]`. -/
theorem c5_collinear_collapse (points : List Pt) (h3 : 3 ≤ points.length)
    (hseg : ∀ p ∈ points, ∃ s : ℝ, 0 ≤ s ∧ s ≤ 1 ∧
      p.1 = points.headI.1 + s * ((points.getLastD (0, 0)).1 - points.headI.1) ∧
      p.2 = points.headI.2 + s * ((points.getLastD (0, 0)).2 - points.headI.2)) :
    simplify_path_latlon points 0 = [points.headI, points.getLastD (0, 0)] := by
  have hz : rdpMaxLoop points points.headI (points.getLastD (0, 0)) = (-1, 0) := by
    apply rdpMaxLoop_all_zero
    intro p hp
    obtain ⟨s, h0, h1, hp1, hp2⟩ := hseg p hp
    exact perp_dist_eq_zero_of_seg p _ _ s h0 h1 hp1 hp2
  apply simplify_eq_collapse points 0 (by omega)
  rw [hz]
  exact lt_irrefl 0

/-- Claim C5 (witness): the vertical three-point segment collapses to its
endpoints at tolerance `0`. -/
theorem c5_collinear_collapse_witness :
    simplify_path_latlon [((0 : ℝ), (0 : ℝ)), (0, 1), (0, 2)] 0 =
      [((0 : ℝ), (0 : ℝ)), ((0 : ℝ), (2 : ℝ))] := by
  have h := c5_collinear_collapse [((0 : ℝ), (0 : ℝ)), (0, 1), (0, 2)] (by norm_num) ?_
  · exact h
  · intro p hp
    simp only [List.mem_cons, List.not_mem_nil, or_false] at hp
    rcases hp with rfl | rfl | rfl
    · exact ⟨0, le_rfl, by norm_num, by norm_num, by norm_num⟩
    · exact ⟨1 / 2, by norm_num, by norm_num, by norm_num, by norm_num⟩
    · exact ⟨1, by norm_num, le_rfl, by norm_num, by norm_num⟩

/-! ## Claim C10 -/

/-- Claim C10: with a nonnegative tolerance, whenever the scan's maximum
distance exceeds the tolerance on a three-or-more point input, the chosen
split index is a strict interior index (between 1 and `len - 2`), so both
recursive calls of the simplifier receive strictly shorter lists — the
recursion terminates. -/
theorem c10_split_index_interior (points : List Pt) (tol : ℝ) (htol : 0 ≤ tol)
    (h3 : 3 ≤ points.length)
    (hd : tol < (rdpMaxLoop points points.headI (points.getLastD (0, 0))).2) :
    1 ≤ (rdpMaxLoop points points.headI (points.getLastD (0, 0))).1 ∧
    (rdpMaxLoop points points.headI (points.getLastD (0, 0))).1 ≤
      (points.length : ℤ) - 2 ∧
    (pyTake points
      ((rdpMaxLoop points points.headI (points.getLastD (0, 0))).1 + 1)).length <
      points.length ∧
    (pyDrop points
      (rdpMaxLoop points points.headI (points.getLastD (0, 0))).1).length <
      points.length := by
  rcases rdpMaxLoop_cases points points.headI (points.getLastD (0, 0)) with
    ⟨h1, h2⟩ | ⟨h1, h2⟩
  · exfalso
    rw [h2] at hd
    linarith
  · exact ⟨h1, h2, pyTake_length_lt points h3 _ (Or.inr ⟨h1, h2⟩),
      pyDrop_length_lt points h3 _ (Or.inr ⟨h1, h2⟩)⟩

/-- Claim C10 (witness): the triangular path at tolerance `0`; the scan
yields `(1, 1)` and the split index is interior. -/
theorem c10_split_index_interior_witness :
    1 ≤ (rdpMaxLoop [((0 : ℝ), (0 : ℝ)), (1, 1), (2, 0)]
        (([((0 : ℝ), (0 : ℝ)), (1, 1), (2, 0)] : List Pt).headI)
        (([((0 : ℝ), (0 : ℝ)), (1, 1), (2, 0)] : List Pt).getLastD (0, 0))).1 ∧
    (rdpMaxLoop [((0 : ℝ), (0 : ℝ)), (1, 1), (2, 0)]
        (([((0 : ℝ), (0 : ℝ)), (1, 1), (2, 0)] : List Pt).headI)
        (([((0 : ℝ), (0 : ℝ)), (1, 1), (2, 0)] : List Pt).getLastD (0, 0))).1 ≤
      (([((0 : ℝ), (0 : ℝ)), (1, 1), (2, 0)] : List Pt).length : ℤ) - 2 ∧
    (pyTake [((0 : ℝ), (0 : ℝ)), (1, 1), (2, 0)]
      ((rdpMaxLoop [((0 : ℝ), (0 : ℝ)), (1, 1), (2, 0)]
        (([((0 : ℝ), (0 : ℝ)), (1, 1), (2, 0)] : List Pt).headI)
        (([((0 : ℝ), (0 : ℝ)), (1, 1), (2, 0)] : List Pt).getLastD (0, 0))).1 + 1)).length <
      ([((0 : ℝ), (0 : ℝ)), (1, 1), (2, 0)] : List Pt).length ∧
    (pyDrop [((0 : ℝ), (0 : ℝ)), (1, 1), (2, 0)]
      (rdpMaxLoop [((0 : ℝ), (0 : ℝ)), (1, 1), (2, 0)]
        (([((0 : ℝ), (0 : ℝ)), (1, 1), (2, 0)] : List Pt).headI)
        (([((0 : ℝ), (0 : ℝ)), (1, 1), (2, 0)] : List Pt).getLastD (0, 0))).1).length <
      ([((0 : ℝ), (0 : ℝ)), (1, 1), (2, 0)] : List Pt).length := by
  have hr : rdpMaxLoop [((0 : ℝ), (0 : ℝ)), (1, 1), (2, 0)]
      (([((0 : ℝ), (0 : ℝ)), (1, 1), (2, 0)] : List Pt).headI)
      (([((0 : ℝ), (0 : ℝ)), (1, 1), (2, 0)] : List Pt).getLastD (0, 0)) = (1, 1) := by
    rw [show ([((0 : ℝ), (0 : ℝ)), (1, 1), (2, 0)] : List Pt).headI =
      ((0 : ℝ), (0 : ℝ)) from rfl]
    rw [show ([((0 : ℝ), (0 : ℝ)), (1, 1), (2, 0)] : List Pt).getLastD (0, 0) =
      ((2 : ℝ), (0 : ℝ)) from rfl]
    exact rdp_eval_tri
  exact c10_split_index_interior [((0 : ℝ), (0 : ℝ)), (1, 1), (2, 0)] 0 le_rfl
    (by norm_num) (by rw [hr]; norm_num)
